import Mathlib

/-!
Verification development for the sentiment-classification repository
(src/models.py).  The extraction layer (Indexer, Counter, feature
extractors), the two online trainers and the linear classifiers are
shallowly embedded below; machine floats are modelled by real numbers.
Definitions suffixed `_from_spec` follow the natural-language design
document instead of the source and are compared to the source embedding
by refinement theorems.
-/

/-- Modelled from the spec: the Indexer class of utils.py, which is part of
this repository but absent from src/.  Per spec section 3 and 4.1 it is an
ordered bijection between string keys and dense integer ids assigned in
first-seen order starting at 0; lookup of an unknown key yields the
sentinel -1, never an error.  We represent it by the list of keys in
first-seen order; the id of a key is its position. -/
abbrev Indexer := List String

/-- Modelled from the spec: Indexer.index_of of utils.py — returns the
existing id of the key, or -1 when absent; no side effect. -/
def Indexer.index_of (ind : Indexer) (key : String) : Int :=
  match ind.findIdx? (fun s => s == key) with
  | some i => (i : Int)
  | none => -1

/-- Modelled from the spec: Indexer.add_and_get_index of utils.py — returns
the existing id if present, otherwise assigns the next sequential integer
(the current size), stores the mapping and returns it.  The updated
indexer is returned alongside the id. -/
def Indexer.add_and_get_index (ind : Indexer) (key : String) : Int × Indexer :=
  match ind.findIdx? (fun s => s == key) with
  | some i => ((i : Int), ind)
  | none => ((ind.length : Int), ind ++ [key])

/-- A sparse feature vector: the embedding of a Python Counter mapping
feature id to count, kept in insertion order (Python dicts preserve
insertion order). -/
abbrev Counter := List (Int × Nat)

/-- The embedding of the Python Counter update features[index] += 1:
bump the entry for the key if present, otherwise append the key with
count 1. -/
def Counter.incr : Counter → Int → Counter
  | [], k => [(k, 1)]
  | q :: rest, k => if k = q.1 then (q.1, q.2 + 1) :: rest else q :: Counter.incr rest k

/-- Assoc-list lookup of a count, 0 when the key is absent.  Used by the
spec-side definitions to express simultaneous pointwise weight updates. -/
def Counter.countOf : Counter → Int → Nat
  | [], _ => 0
  | q :: rest, k => if k = q.1 then q.2 else Counter.countOf rest k

/-- Modelled from the spec: SentimentExample of sentiment_data.py, which is
part of this repository but absent from src/ — an ordered sequence of
tokens plus a binary label (0 = negative, 1 = positive). -/
structure SentimentExample where
  words : List String
  label : Nat

/-- The bigram composite key of models.py line 68 / 102:
the Python f-string joining the two tokens with an underscore. -/
def bigramKey (a b : String) : String := a ++ "_" ++ b

/-- The shared loop body of every extractor in models.py (lines 44-50,
67-74, 91-108): resolve the key through the indexer — growing it when
add_to_indexer is set — and increment the count unless the sentinel -1
came back. -/
def resolveStep (add_to_indexer : Bool) (acc : Counter × Indexer) (key : String) :
    Counter × Indexer :=
  let r := if add_to_indexer then Indexer.add_and_get_index acc.2 key
           else (Indexer.index_of acc.2 key, acc.2)
  if r.1 ≠ -1 then (Counter.incr acc.1 r.1, r.2) else (acc.1, r.2)

/-- models.py lines 42-51: UnigramFeatureExtractor.extract_features — one
resolveStep per token, starting from an empty Counter.  The (possibly
grown) indexer is returned alongside the features. -/
def UnigramFeatureExtractor.extract_features (ind : Indexer) (sentence : List String)
    (add_to_indexer : Bool) : Counter × Indexer :=
  sentence.foldl (fun acc word => resolveStep add_to_indexer acc word) ([], ind)

/-- models.py lines 65-75: BigramFeatureExtractor.extract_features — one
resolveStep per adjacent token pair, keyed by bigramKey. -/
def BigramFeatureExtractor.extract_features (ind : Indexer) (sentence : List String)
    (add_to_indexer : Bool) : Counter × Indexer :=
  (sentence.zip sentence.tail).foldl
    (fun acc p => resolveStep add_to_indexer acc (bigramKey p.1 p.2)) ([], ind)

/-- models.py lines 89-110: BetterFeatureExtractor.extract_features — the
unigram loop guarded by len(word) > 2, followed by the bigram loop, both
feeding the same Counter and Indexer. -/
def BetterFeatureExtractor.extract_features (ind : Indexer) (sentence : List String)
    (add_to_indexer : Bool) : Counter × Indexer :=
  let acc1 := sentence.foldl
    (fun acc word => if 2 < word.length then resolveStep add_to_indexer acc word else acc)
    ([], ind)
  (sentence.zip sentence.tail).foldl
    (fun acc p => resolveStep add_to_indexer acc (bigramKey p.1 p.2)) acc1

/-- The closed set of feature-extractor variants of models.py. -/
inductive FeatKind
  | UNIGRAM
  | BIGRAM
  | BETTER

/-- Dispatch over the extractor variants, mirroring the polymorphic
extract_features calls in models.py. -/
def extract_features : FeatKind → Indexer → List String → Bool → Counter × Indexer
  | .UNIGRAM => UnigramFeatureExtractor.extract_features
  | .BIGRAM => BigramFeatureExtractor.extract_features
  | .BETTER => BetterFeatureExtractor.extract_features

/-- The score of models.py lines 148, 166, 190, 217:
sum(weights[idx] * value for idx, value in features.items()).  Machine
floats are modelled by real numbers. -/
noncomputable def dotScore (weights : Int → ℝ) (features : Counter) : ℝ :=
  (features.map (fun p => weights p.1 * (p.2 : ℝ))).sum

/-- models.py line 130: TrivialSentimentClassifier.predict always returns 1. -/
def TrivialSentimentClassifier.predict (_sentence : List String) : Nat := 1

/-- models.py lines 146-149: PerceptronClassifier.predict — non-growth
extraction, dot product, 1 when the score is strictly positive, else 0. -/
noncomputable def PerceptronClassifier.predict (weights : Int → ℝ) (k : FeatKind)
    (ind : Indexer) (sentence : List String) : Nat :=
  let features := (extract_features k ind sentence false).1
  let score := dotScore weights features
  if 0 < score then 1 else 0

/-- models.py lines 164-168: LogisticRegressionClassifier.predict —
non-growth extraction, dot product, probability = 1 / (1 + exp(score))
(keeping the sign convention of the source), 1 when probability >= 0.5. -/
noncomputable def LogisticRegressionClassifier.predict (weights : Int → ℝ) (k : FeatKind)
    (ind : Indexer) (sentence : List String) : Nat :=
  let features := (extract_features k ind sentence false).1
  let score := dotScore weights features
  let probability := 1 / (1 + Real.exp score)
  if probability ≥ 0.5 then 1 else 0

/-- A trained linear model: the weight vector together with the frozen
extractor (variant and indexer), as wrapped by the classifier
constructors of models.py. -/
structure LinearModel where
  weights : Int → ℝ
  feat : FeatKind
  indexer : Indexer

/-- models.py lines 188-193: the body of the perceptron inner loop for a
single example — non-growth extraction, score, and the mistake-driven
update weights[idx] += lr * value if label == 1 else -lr * value,
performed only when (prediction > 0) != (label == 1). -/
noncomputable def perceptron_example_step (k : FeatKind) (ind : Indexer)
    (weights : Int → ℝ) (ex : SentimentExample) : Int → ℝ :=
  let features := (extract_features k ind ex.words false).1
  let prediction := dotScore weights features
  if ¬ (0 < prediction ↔ ex.label = 1) then
    features.foldl (fun w p =>
      Function.update w p.1
        (w p.1 + (if ex.label = 1 then 0.0001 * (p.2 : ℝ) else -(0.0001 * (p.2 : ℝ)))))
      weights
  else weights

/-- models.py lines 171-195: train_perceptron — one growth pass over the
training data to fix the vocabulary, a zero weight vector, then 30 epochs
of shuffled online perceptron updates.  The in-place np.random.shuffle is
modelled by a caller-supplied shuffle function applied to the previous
epoch order. -/
noncomputable def train_perceptron
    (shuffle : Nat → List SentimentExample → List SentimentExample)
    (train_exs : List SentimentExample) (k : FeatKind) (ind0 : Indexer) : LinearModel :=
  let ind := train_exs.foldl (fun i ex => (extract_features k i ex.words true).2) ind0
  let st := (List.range 30).foldl
    (fun st epoch =>
      let exs := shuffle epoch st.2
      (exs.foldl (perceptron_example_step k ind) st.1, exs))
    ((fun _ => (0 : ℝ)), train_exs)
  ⟨st.1, k, ind⟩

/-- models.py lines 215-221: the body of the logistic-regression inner loop
for a single example — non-growth extraction, score,
probability = 1 / (1 + exp(score)), error = label - probability, and the
update weights[idx] -= 0.4 * error * value for every item of the feature
vector. -/
noncomputable def lr_example_step (k : FeatKind) (ind : Indexer)
    (weights : Int → ℝ) (ex : SentimentExample) : Int → ℝ :=
  let features := (extract_features k ind ex.words false).1
  let score := dotScore weights features
  let probability := 1 / (1 + Real.exp score)
  let error := (ex.label : ℝ) - probability
  features.foldl (fun w p =>
    Function.update w p.1 (w p.1 - 0.4 * error * (p.2 : ℝ))) weights

/-- models.py lines 198-223: train_logistic_regression — one growth pass to
fix the vocabulary, a zero weight vector, then 30 epochs of shuffled
online gradient steps. -/
noncomputable def train_logistic_regression
    (shuffle : Nat → List SentimentExample → List SentimentExample)
    (train_exs : List SentimentExample) (k : FeatKind) (ind0 : Indexer) : LinearModel :=
  let ind := train_exs.foldl (fun i ex => (extract_features k i ex.words true).2) ind0
  let st := (List.range 30).foldl
    (fun st epoch =>
      let exs := shuffle epoch st.2
      (exs.foldl (lr_example_step k ind) st.1, exs))
    ((fun _ => (0 : ℝ)), train_exs)
  ⟨st.1, k, ind⟩

/-- models.py lines 226-238: train_better — an extra growth pass over the
training data, then dispatch on the hard-wired model_type string
(always "PERCEPTRON"; the dead error branch is kept, with the quotes of
the source message dropped). -/
noncomputable def train_better
    (shuffle : Nat → List SentimentExample → List SentimentExample)
    (train_exs : List SentimentExample) (k : FeatKind) (ind0 : Indexer) :
    Except String LinearModel :=
  let ind := train_exs.foldl (fun i ex => (extract_features k i ex.words true).2) ind0
  let model_type := "PERCEPTRON"
  if model_type = "PERCEPTRON" then .ok (train_perceptron shuffle train_exs k ind)
  else if model_type = "LR" then .ok (train_logistic_regression shuffle train_exs k ind)
  else .error "Unsupported model type. Choose PERCEPTRON or LR."

/-- The result of train_model: one of the classifier objects of models.py. -/
inductive SentimentClassifier
  | trivialC
  | perceptronC (m : LinearModel)
  | logisticC (m : LinearModel)

/-- The configuration bundle consumed by train_model (args.model and
args.feats). -/
structure Args where
  model : String
  feats : String

/-- models.py lines 267-276: the second dispatch chain of train_model over
args.model, reached only when args.model is not TRIVIAL (that case
returns earlier), with a fresh empty Indexer per feats branch. -/
noncomputable def train_model_dispatch (args : Args) (k : FeatKind)
    (shuffle : Nat → List SentimentExample → List SentimentExample)
    (train_exs : List SentimentExample) : Except String SentimentClassifier :=
  if args.model = "PERCEPTRON" then .ok (.perceptronC (train_perceptron shuffle train_exs k []))
  else if args.model = "LR" then .ok (.logisticC (train_logistic_regression shuffle train_exs k []))
  else if args.model = "BETTER" then (train_better shuffle train_exs k []).map .perceptronC
  else .error "Pass in TRIVIAL, PERCEPTRON, or LR to run the appropriate system"

/-- models.py lines 241-277: train_model — the feature-extractor dispatch
chain over args.feats runs first (skipped entirely when args.model is
TRIVIAL, in which case feat_extractor is None and the trivial classifier
is returned without ever validating args.feats), then the model dispatch
chain. -/
noncomputable def train_model (args : Args)
    (shuffle : Nat → List SentimentExample → List SentimentExample)
    (train_exs : List SentimentExample) : Except String SentimentClassifier :=
  if args.model = "TRIVIAL" then .ok .trivialC
  else if args.feats = "UNIGRAM" then train_model_dispatch args .UNIGRAM shuffle train_exs
  else if args.feats = "BIGRAM" then train_model_dispatch args .BIGRAM shuffle train_exs
  else if args.feats = "BETTER" then train_model_dispatch args .BETTER shuffle train_exs
  else .error "Pass in UNIGRAM, BIGRAM, or BETTER to run the appropriate system"

/-- Convenience discriminator used by closed statements about train_model:
true exactly on Except.ok results. -/
def exceptIsOk : Except String SentimentClassifier → Bool
  | .ok _ => true
  | .error _ => false

/-- The perceptron update of a single example as the spec states it
(section 4.3): predicted class is 1 when the score is strictly positive
and 0 otherwise; no change when it equals the true label; otherwise every
weight moves by learningRate * count, upward for a positive label and
downward for a negative one, simultaneously over all ids. -/
noncomputable def perceptron_example_step_from_spec (k : FeatKind) (ind : Indexer)
    (weights : Int → ℝ) (ex : SentimentExample) : Int → ℝ :=
  let features := (extract_features k ind ex.words false).1
  let score := dotScore weights features
  let predicted : Nat := if 0 < score then 1 else 0
  if predicted = ex.label then weights
  else if ex.label = 1 then
    fun id => weights id + 0.0001 * (Counter.countOf features id : ℝ)
  else
    fun id => weights id - 0.0001 * (Counter.countOf features id : ℝ)

/-- Perceptron training as the spec states it: the same growth pass, zero
initialisation, epoch count and shuffling as the source, with the
per-example update written as the simultaneous pointwise formula of
perceptron_example_step_from_spec. -/
noncomputable def train_perceptron_from_spec
    (shuffle : Nat → List SentimentExample → List SentimentExample)
    (train_exs : List SentimentExample) (k : FeatKind) (ind0 : Indexer) : LinearModel :=
  let ind := train_exs.foldl (fun i ex => (extract_features k i ex.words true).2) ind0
  let st := (List.range 30).foldl
    (fun st epoch =>
      let exs := shuffle epoch st.2
      (exs.foldl (perceptron_example_step_from_spec k ind) st.1, exs))
    ((fun _ => (0 : ℝ)), train_exs)
  ⟨st.1, k, ind⟩

/-- The logistic-regression update of a single example as the spec states
it (section 4.3): score over the non-growth features, probability =
1 / (1 + exp(score)), error = trueLabel - probability, and the
simultaneous pointwise update weight[id] -= 0.4 * error * count (ids
outside the feature vector keep their weight, their count being 0). -/
noncomputable def lr_example_step_from_spec (k : FeatKind) (ind : Indexer)
    (weights : Int → ℝ) (ex : SentimentExample) : Int → ℝ :=
  let features := (extract_features k ind ex.words false).1
  let score := dotScore weights features
  let probability := 1 / (1 + Real.exp score)
  let error := (ex.label : ℝ) - probability
  fun id => weights id - 0.4 * error * (Counter.countOf features id : ℝ)

/-- Logistic-regression training as the spec states it: the same growth
pass, zero initialisation, 30 epochs and shuffling as the source, with the
per-example update of lr_example_step_from_spec. -/
noncomputable def train_logistic_regression_from_spec
    (shuffle : Nat → List SentimentExample → List SentimentExample)
    (train_exs : List SentimentExample) (k : FeatKind) (ind0 : Indexer) : LinearModel :=
  let ind := train_exs.foldl (fun i ex => (extract_features k i ex.words true).2) ind0
  let st := (List.range 30).foldl
    (fun st epoch =>
      let exs := shuffle epoch st.2
      (exs.foldl (lr_example_step_from_spec k ind) st.1, exs))
    ((fun _ => (0 : ℝ)), train_exs)
  ⟨st.1, k, ind⟩

/-! ### Helper lemmas -/

/-- A foldl preserves any invariant preserved by its step function. -/
theorem foldl_invariant {α β : Type _} (P : α → Prop) (f : α → β → α) :
    ∀ (l : List β) (a : α), P a → (∀ a b, P a → P (f a b)) → P (l.foldl f a) := by
  intro l
  induction l with
  | nil => intro a ha _; exact ha
  | cons x xs ih => intro a ha h; exact ih (f a x) (h a x ha) h

/-- A lookup that did not return the sentinel returned a valid id. -/
theorem Indexer.index_of_nonneg (ind : Indexer) (key : String)
    (h : Indexer.index_of ind key ≠ -1) : 0 ≤ Indexer.index_of ind key := by
  unfold Indexer.index_of at h ⊢
  cases hf : ind.findIdx? (fun s => s == key) with
  | some i => simp [hf]
  | none => rw [hf] at h; exact absurd rfl h

/-- Growth-mode resolution always returns a valid id. -/
theorem Indexer.add_and_get_nonneg (ind : Indexer) (key : String) :
    0 ≤ (Indexer.add_and_get_index ind key).1 := by
  unfold Indexer.add_and_get_index
  cases hf : ind.findIdx? (fun s => s == key) <;> simp

/-- Counter.incr preserves non-negative keys and positive counts when the
incremented key is non-negative. -/
theorem Counter.incr_entries (k : Int) (hk : 0 ≤ k) :
    ∀ (c : Counter), (∀ p ∈ c, 0 ≤ p.1 ∧ 0 < p.2) →
      ∀ p ∈ Counter.incr c k, 0 ≤ p.1 ∧ 0 < p.2 := by
  intro c
  induction c with
  | nil =>
    intro _ p hp
    simp only [Counter.incr, List.mem_singleton] at hp
    subst hp
    exact ⟨hk, Nat.one_pos⟩
  | cons q rest ih =>
    intro hc p hp
    by_cases h : k = q.1
    · rw [Counter.incr, if_pos h] at hp
      rcases List.mem_cons.mp hp with h1 | h2
      · subst h1
        exact ⟨(hc q (List.mem_cons_self q rest)).1, Nat.succ_pos q.2⟩
      · exact hc p (List.mem_cons_of_mem q h2)
    · rw [Counter.incr, if_neg h] at hp
      rcases List.mem_cons.mp hp with h1 | h2
      · exact h1 ▸ hc q (List.mem_cons_self q rest)
      · exact ih (fun r hr => hc r (List.mem_cons_of_mem q hr)) p h2

/-- The key list after Counter.incr: unchanged when the key was present,
the key appended otherwise. -/
theorem Counter.keys_incr (k : Int) :
    ∀ (c : Counter), (Counter.incr c k).map Prod.fst
      = if k ∈ c.map Prod.fst then c.map Prod.fst else c.map Prod.fst ++ [k] := by
  intro c
  induction c with
  | nil => simp [Counter.incr]
  | cons q rest ih =>
    by_cases h : k = q.1
    · simp [Counter.incr, h]
    · by_cases hm : k ∈ rest.map Prod.fst
      · simp [Counter.incr, if_neg h, ih, hm, h]
      · simp [Counter.incr, if_neg h, ih, hm, h]

/-- Counter.incr preserves distinctness of the stored keys. -/
theorem Counter.incr_nodup (k : Int) (c : Counter)
    (h : (c.map Prod.fst).Nodup) : ((Counter.incr c k).map Prod.fst).Nodup := by
  rw [Counter.keys_incr]
  by_cases hm : k ∈ c.map Prod.fst
  · simpa [hm] using h
  · rw [if_neg hm]
    exact List.Nodup.append h (List.nodup_singleton k)
      (fun a ha hb => hm (by rwa [List.mem_singleton.mp hb] at ha))

/-- A key absent from the counter has count 0. -/
theorem Counter.countOf_eq_zero : ∀ (c : Counter) (k : Int),
    k ∉ c.map Prod.fst → Counter.countOf c k = 0 := by
  intro c
  induction c with
  | nil => intro k _; rfl
  | cons q rest ih =>
    intro k h
    simp only [List.map_cons, List.mem_cons] at h
    push_neg at h
    rw [Counter.countOf, if_neg h.1]
    exact ih k h.2

/-- The resolved id of a key, in either growth mode, is a valid id
whenever it is not the sentinel. -/
theorem resolved_index_nonneg (add : Bool) (ind : Indexer) (key : String)
    (h : (if add then Indexer.add_and_get_index ind key
          else (Indexer.index_of ind key, ind)).1 ≠ -1) :
    0 ≤ (if add then Indexer.add_and_get_index ind key
         else (Indexer.index_of ind key, ind)).1 := by
  cases add with
  | true => simpa using Indexer.add_and_get_nonneg ind key
  | false => simpa using Indexer.index_of_nonneg ind key (by simpa using h)

/-- resolveStep preserves non-negative keys and positive counts. -/
theorem resolveStep_entries (add : Bool) (acc : Counter × Indexer) (key : String)
    (h : ∀ p ∈ acc.1, 0 ≤ p.1 ∧ 0 < p.2) :
    ∀ p ∈ (resolveStep add acc key).1, 0 ≤ p.1 ∧ 0 < p.2 := by
  unfold resolveStep
  by_cases hne : (if add then Indexer.add_and_get_index acc.2 key
      else (Indexer.index_of acc.2 key, acc.2)).1 ≠ -1
  · rw [if_pos hne]
    exact Counter.incr_entries _ (resolved_index_nonneg add acc.2 key hne) acc.1 h
  · rw [if_neg hne]
    exact h

/-- resolveStep preserves distinctness of the stored keys. -/
theorem resolveStep_nodup (add : Bool) (acc : Counter × Indexer) (key : String)
    (h : (acc.1.map Prod.fst).Nodup) :
    (((resolveStep add acc key).1).map Prod.fst).Nodup := by
  unfold resolveStep
  by_cases hne : (if add then Indexer.add_and_get_index acc.2 key
      else (Indexer.index_of acc.2 key, acc.2)).1 ≠ -1
  · rw [if_pos hne]
    exact Counter.incr_nodup _ acc.1 h
  · rw [if_neg hne]
    exact h

/-- In non-growth mode resolveStep leaves the indexer untouched. -/
theorem resolveStep_snd (acc : Counter × Indexer) (key : String) :
    (resolveStep false acc key).2 = acc.2 := by
  simp only [resolveStep, Bool.false_eq_true, if_false]
  split <;> rfl

/-- Folding over a filtered list is folding with the filter as a guard. -/
theorem foldl_filter_eq {α β : Type _} (q : β → Prop) [DecidablePred q] (f : α → β → α) :
    ∀ (l : List β) (a : α),
      (l.filter (fun b => decide (q b))).foldl f a
        = l.foldl (fun acc b => if q b then f acc b else acc) a := by
  intro l
  induction l with
  | nil => intro a; rfl
  | cons x xs ih =>
    intro a
    by_cases h : q x
    · simp [List.filter_cons, h, ih]
    · simp [List.filter_cons, h, ih]

/-- Sequentially updating each stored key by a constant multiple of its
count equals the simultaneous pointwise update, when keys are distinct. -/
theorem counter_foldl_update (a : ℝ) :
    ∀ (c : Counter) (w : Int → ℝ), (c.map Prod.fst).Nodup →
      c.foldl (fun w p => Function.update w p.1 (w p.1 + a * (p.2 : ℝ))) w
        = fun id => w id + a * (Counter.countOf c id : ℝ) := by
  intro c
  induction c with
  | nil => intro w _; funext id; simp [Counter.countOf]
  | cons q rest ih =>
    intro w h
    simp only [List.map_cons, List.nodup_cons] at h
    rw [List.foldl_cons, ih _ h.2]
    funext id
    by_cases hid : id = q.1
    · subst hid
      rw [Counter.countOf_eq_zero rest q.1 h.1]
      simp [Counter.countOf, Function.update_same]
    · simp [Counter.countOf, Function.update_noteq hid, hid]

/-- Variant of counter_foldl_update for a subtracted constant multiple. -/
theorem foldl_update_sub (b : ℝ) (c : Counter) (w : Int → ℝ)
    (h : (c.map Prod.fst).Nodup) :
    c.foldl (fun w p => Function.update w p.1 (w p.1 - b * (p.2 : ℝ))) w
      = fun id => w id - b * (Counter.countOf c id : ℝ) := by
  have h1 : (fun (w : Int → ℝ) (p : Int × Nat) => Function.update w p.1 (w p.1 - b * (p.2 : ℝ)))
      = fun w p => Function.update w p.1 (w p.1 + (-b) * (p.2 : ℝ)) := by
    funext w p
    ring_nf
  rw [h1, counter_foldl_update (-b) c w h]
  funext id
  ring

/-- Variant of counter_foldl_update for a negated added multiple. -/
theorem foldl_update_neg (b : ℝ) (c : Counter) (w : Int → ℝ)
    (h : (c.map Prod.fst).Nodup) :
    c.foldl (fun w p => Function.update w p.1 (w p.1 + -(b * (p.2 : ℝ)))) w
      = fun id => w id - b * (Counter.countOf c id : ℝ) := by
  have h1 : (fun (w : Int → ℝ) (p : Int × Nat) => Function.update w p.1 (w p.1 + -(b * (p.2 : ℝ))))
      = fun w p => Function.update w p.1 (w p.1 + (-b) * (p.2 : ℝ)) := by
    funext w p
    ring_nf
  rw [h1, counter_foldl_update (-b) c w h]
  funext id
  ring

/-- The features of any extraction have distinct keys. -/
theorem extract_nodup (k : FeatKind) (ind : Indexer) (s : List String) (add : Bool) :
    (((extract_features k ind s add).1).map Prod.fst).Nodup := by
  cases k with
  | UNIGRAM =>
    exact foldl_invariant (fun acc => ((acc.1).map Prod.fst).Nodup)
      (fun acc word => resolveStep add acc word) s ([], ind) (by simp)
      (fun acc word h => resolveStep_nodup add acc word h)
  | BIGRAM =>
    exact foldl_invariant (fun acc => ((acc.1).map Prod.fst).Nodup)
      (fun acc p => resolveStep add acc (bigramKey p.1 p.2)) (s.zip s.tail) ([], ind)
      (by simp) (fun acc p h => resolveStep_nodup add acc _ h)
  | BETTER =>
    refine foldl_invariant (fun acc => ((acc.1).map Prod.fst).Nodup)
      (fun acc p => resolveStep add acc (bigramKey p.1 p.2)) (s.zip s.tail) _
      ?_ (fun acc p h => resolveStep_nodup add acc _ h)
    refine foldl_invariant (fun acc => ((acc.1).map Prod.fst).Nodup)
      (fun acc word => if 2 < word.length then resolveStep add acc word else acc) s ([], ind)
      (by simp) ?_
    intro acc word h
    dsimp only
    split
    · exact resolveStep_nodup add acc word h
    · exact h

/-- From one epoch-step function to another along a foldl over List.range,
given pointwise agreement and invariant preservation on the threaded
example list. -/
theorem range_foldl_congr {W E : Type _} (f g : (W × List E) → Nat → (W × List E))
    (Inv : List E → Prop)
    (hfg : ∀ st n, Inv st.2 → f st n = g st n)
    (hInv : ∀ st n, Inv st.2 → Inv (f st n).2) :
    ∀ (N : Nat) (st : W × List E), Inv st.2 →
      (List.range N).foldl f st = (List.range N).foldl g st := by
  intro N
  induction N with
  | zero => intro st _; rfl
  | succ n ih =>
    intro st h
    have hpres : Inv (((List.range n).foldl f st).2) :=
      foldl_invariant (fun st => Inv st.2) f (List.range n) st h (fun a b hb => hInv a b hb)
    rw [List.range_succ, List.foldl_append, List.foldl_append, ← ih st h]
    simp only [List.foldl_cons, List.foldl_nil]
    rw [hfg _ n hpres]

/-- The threshold of the inverted sigmoid: 1 / (1 + exp x) reaches 1/2
exactly when x is non-positive. -/
theorem logistic_threshold (x : ℝ) : ((1 : ℝ) / (1 + Real.exp x) ≥ 0.5) ↔ x ≤ 0 := by
  have hpos : (0 : ℝ) < 1 + Real.exp x := by positivity
  rw [ge_iff_le, show (0.5 : ℝ) = 1 / 2 by norm_num, div_le_div_iff₀ (by norm_num) hpos,
    one_mul, one_mul]
  constructor
  · intro h
    have : Real.exp x ≤ 1 := by linarith
    exact Real.exp_le_one_iff.mp this
  · intro h
    have : Real.exp x ≤ 1 := Real.exp_le_one_iff.mpr h
    linarith

/-! ### Claim theorems -/

/-- C7: For every extractor variant and every token sequence, extraction
with growVocabulary = false never fails (it is a total function of the
embedding) and returns the indexer entirely unchanged — in particular its
size is unchanged; the -1 sentinel of an unseen feature short-circuits
its inclusion in the returned sparse vector (the else branch of
resolveStep keeps the Counter as it was). -/
theorem C7_no_grow_preserves_indexer (k : FeatKind) (ind : Indexer) (s : List String) :
    (extract_features k ind s false).2 = ind := by
  cases k with
  | UNIGRAM =>
    exact foldl_invariant (fun acc => acc.2 = ind)
      (fun acc word => resolveStep false acc word) s ([], ind) rfl
      (fun acc word h => (resolveStep_snd acc word).trans h)
  | BIGRAM =>
    exact foldl_invariant (fun acc => acc.2 = ind)
      (fun acc p => resolveStep false acc (bigramKey p.1 p.2)) (s.zip s.tail) ([], ind) rfl
      (fun acc p h => (resolveStep_snd acc _).trans h)
  | BETTER =>
    refine foldl_invariant (fun acc => acc.2 = ind)
      (fun acc p => resolveStep false acc (bigramKey p.1 p.2)) (s.zip s.tail) _
      ?_ (fun acc p h => (resolveStep_snd acc _).trans h)
    refine foldl_invariant (fun acc => acc.2 = ind)
      (fun acc word => if 2 < word.length then resolveStep false acc word else acc) s ([], ind)
      rfl ?_
    intro acc word h
    dsimp only
    split
    · exact (resolveStep_snd acc word).trans h
    · exact h

/-- C9: For every extractor variant, token sequence and growth mode, every
entry stored in the returned sparse feature vector has a non-negative
feature id and a strictly positive count. -/
theorem C9_entries_positive (k : FeatKind) (ind : Indexer) (s : List String) (add : Bool) :
    ∀ p ∈ (extract_features k ind s add).1, 0 ≤ p.1 ∧ 0 < p.2 := by
  cases k with
  | UNIGRAM =>
    exact foldl_invariant (fun acc => ∀ p ∈ acc.1, 0 ≤ p.1 ∧ 0 < p.2)
      (fun acc word => resolveStep add acc word) s ([], ind) (by simp)
      (fun acc word h => resolveStep_entries add acc word h)
  | BIGRAM =>
    exact foldl_invariant (fun acc => ∀ p ∈ acc.1, 0 ≤ p.1 ∧ 0 < p.2)
      (fun acc p => resolveStep add acc (bigramKey p.1 p.2)) (s.zip s.tail) ([], ind)
      (by simp) (fun acc p h => resolveStep_entries add acc _ h)
  | BETTER =>
    refine foldl_invariant (fun acc => ∀ p ∈ acc.1, 0 ≤ p.1 ∧ 0 < p.2)
      (fun acc p => resolveStep add acc (bigramKey p.1 p.2)) (s.zip s.tail) _
      ?_ (fun acc p h => resolveStep_entries add acc _ h)
    refine foldl_invariant (fun acc => ∀ p ∈ acc.1, 0 ≤ p.1 ∧ 0 < p.2)
      (fun acc word => if 2 < word.length then resolveStep add acc word else acc) s ([], ind)
      (by simp) ?_
    intro acc word h
    dsimp only
    split
    · exact resolveStep_entries add acc word h
    · exact h

/-- Witness for C9 at a concrete input: the unigram extraction of ["hi"]
in growth mode stores the entry (0, 1), whose key is non-negative and
whose count is positive. -/
theorem C9_entries_positive_witness : 0 ≤ (0 : Int) ∧ 0 < (1 : Nat) :=
  C9_entries_positive .UNIGRAM [] ["hi"] true ((0 : Int), 1) (by decide)

/-- C8: The Better extractor is exactly: unigram features of the tokens
whose length is strictly greater than 2, followed by a bigram feature for
every adjacent token pair regardless of token length — so a length-2
token such as "to" never yields a unigram feature yet still appears
inside the bigram keys of the pairs it participates in. -/
theorem C8_better_unigram_filter (ind : Indexer) (s : List String) (add : Bool) :
    BetterFeatureExtractor.extract_features ind s add
      = (s.zip s.tail).foldl (fun acc p => resolveStep add acc (bigramKey p.1 p.2))
          (UnigramFeatureExtractor.extract_features ind
            (s.filter (fun t => 2 < t.length)) add) := by
  have h : ∀ a : Counter × Indexer,
      (s.filter (fun t => 2 < t.length)).foldl (fun acc word => resolveStep add acc word) a
        = s.foldl (fun acc word => if 2 < word.length then resolveStep add acc word else acc) a :=
    fun a => foldl_filter_eq (fun t => 2 < t.length) (fun acc word => resolveStep add acc word) s a
  simp only [BetterFeatureExtractor.extract_features, UnigramFeatureExtractor.extract_features, h]

/-- C3 counterexample: the separator is the underscore, which CAN occur
inside tokens, so a bigram key can equal a unigram key as a raw string.
Concretely bigramKey "a" "b" = "a_b", the token "a_b" is long enough to
be a Better unigram feature, and in the Better extraction of
["a_b", "a", "b"] in growth mode the unigram feature of the token "a_b"
and the bigram feature of the pair (a, b) collide on id 0 (count 2); the
final vocabulary has only 2 keys instead of 3. -/
theorem C3_counterexample :
    bigramKey "a" "b" = "a_b"
    ∧ 2 < ("a_b" : String).length
    ∧ (BetterFeatureExtractor.extract_features [] ["a_b", "a", "b"] true).2 = ["a_b", "a_b_a"]
    ∧ (BetterFeatureExtractor.extract_features [] ["a_b", "a", "b"] true).1 = [(0, 2), (1, 1)] := by
  refine ⟨by decide, by decide, by decide, by decide⟩

/-- C3 amended: the bigram key joins the two tokens with the underscore
separator, which is not guaranteed to be absent from tokens; for token
sequences in which no token contains an underscore, a bigram key is never
equal, as a raw string, to any single-token unigram key. -/
theorem C3_amended_no_collision (s : List String)
    (hsep : ∀ t ∈ s, ('_' : Char) ∉ t.data) :
    ∀ p ∈ s.zip s.tail, ∀ t ∈ s, bigramKey p.1 p.2 ≠ t := by
  intro p _ t ht heq
  have h1 : ('_' : Char) ∈ (bigramKey p.1 p.2).data := by
    unfold bigramKey
    rw [String.data_append, String.data_append]
    refine List.mem_append.mpr (Or.inl (List.mem_append.mpr (Or.inr ?_)))
    show ('_' : Char) ∈ ("_" : String).data
    decide
  rw [heq] at h1
  exact hsep t ht h1

/-- Witness for C3 amended at a concrete input: in ["ab", "cd"] no token
contains an underscore and the bigram key ab_cd differs from both
tokens. -/
theorem C3_amended_witness :
    bigramKey "ab" "cd" ≠ "ab" ∧ bigramKey "ab" "cd" ≠ "cd" :=
  ⟨C3_amended_no_collision ["ab", "cd"] (by decide) ("ab", "cd") (by decide) "ab" (by decide),
   C3_amended_no_collision ["ab", "cd"] (by decide) ("ab", "cd") (by decide) "cd" (by decide)⟩

/-- C5: The perceptron-trained classifier extracts features in non-growth
mode, scores them by the dot product with the weights, and returns 1
exactly when the score is strictly positive, 0 otherwise. -/
theorem C5_perceptron_predict (w : Int → ℝ) (k : FeatKind) (ind : Indexer)
    (s : List String) :
    PerceptronClassifier.predict w k ind s
        = (if 0 < dotScore w (extract_features k ind s false).1 then 1 else 0)
      ∧ (PerceptronClassifier.predict w k ind s = 1
          ↔ 0 < dotScore w (extract_features k ind s false).1)
      ∧ (PerceptronClassifier.predict w k ind s = 0
          ↔ dotScore w (extract_features k ind s false).1 ≤ 0) := by
  refine ⟨rfl, ?_, ?_⟩
  · by_cases hs : 0 < dotScore w (extract_features k ind s false).1
    · simp [PerceptronClassifier.predict, hs]
    · simp [PerceptronClassifier.predict, hs]
  · by_cases hs : 0 < dotScore w (extract_features k ind s false).1
    · simp [PerceptronClassifier.predict, hs, not_le.mpr hs]
    · simp [PerceptronClassifier.predict, hs, not_lt.mp hs]

/-- C2: The logistic-trained classifier extracts features in non-growth
mode, converts the dot-product score with the inverted transform
probability = 1 / (1 + exp(score)), and returns 1 exactly when that
probability reaches 0.5 — equivalently, exactly when the score is
NON-POSITIVE, the reverse of the conventional 1 / (1 + exp(-score))
convention. -/
theorem C2_logistic_predict (w : Int → ℝ) (k : FeatKind) (ind : Indexer)
    (s : List String) :
    LogisticRegressionClassifier.predict w k ind s
        = (if (1 : ℝ) / (1 + Real.exp (dotScore w (extract_features k ind s false).1)) ≥ 0.5
           then 1 else 0)
      ∧ (LogisticRegressionClassifier.predict w k ind s = 1
          ↔ dotScore w (extract_features k ind s false).1 ≤ 0) := by
  refine ⟨rfl, ?_⟩
  rw [show LogisticRegressionClassifier.predict w k ind s
      = (if (1 : ℝ) / (1 + Real.exp (dotScore w (extract_features k ind s false).1)) ≥ 0.5
         then 1 else 0) from rfl]
  by_cases hp : (1 : ℝ) / (1 + Real.exp (dotScore w (extract_features k ind s false).1)) ≥ 0.5
  · simp only [if_pos hp]
    simpa using (logistic_threshold _).mp hp
  · simp only [if_neg hp]
    constructor
    · intro h
      exact absurd h (by norm_num)
    · intro h
      exact absurd ((logistic_threshold _).mpr h) hp

/-- C10: For any sentence whose non-growth extraction yields the empty
sparse vector, the dot-product score is exactly 0, so the
perceptron-trained classifier predicts 0 while the logistic-trained
classifier predicts 1 (score 0 maps to probability 1/2, which meets the
threshold): the two variants disagree on this shared edge case. -/
theorem C10_empty_features_disagree (wP wL : Int → ℝ) (kP kL : FeatKind)
    (indP indL : Indexer) (sP sL : List String)
    (hP : (extract_features kP indP sP false).1 = [])
    (hL : (extract_features kL indL sL false).1 = []) :
    dotScore wP (extract_features kP indP sP false).1 = 0
    ∧ PerceptronClassifier.predict wP kP indP sP = 0
    ∧ LogisticRegressionClassifier.predict wL kL indL sL = 1 := by
  refine ⟨?_, ?_, ?_⟩
  · rw [hP]
    simp [dotScore]
  · show (if 0 < dotScore wP (extract_features kP indP sP false).1 then 1 else 0) = 0
    rw [hP]
    simp [dotScore]
  · show (if (1 : ℝ) / (1 + Real.exp (dotScore wL (extract_features kL indL sL false).1)) ≥ 0.5
        then 1 else 0) = 1
    rw [hL]
    simp only [dotScore, List.map_nil, List.sum_nil, Real.exp_zero]
    norm_num

/-- Witness for C10 at concrete inputs: the empty sentence for the
perceptron side and a fully out-of-vocabulary sentence for the logistic
side, both with zero weights and an empty frozen indexer. -/
theorem C10_empty_features_disagree_witness :
    PerceptronClassifier.predict (fun _ => 0) .UNIGRAM [] [] = 0
    ∧ LogisticRegressionClassifier.predict (fun _ => 0) .BIGRAM [] ["unseen", "tokens"] = 1 := by
  have h := C10_empty_features_disagree (fun _ => 0) (fun _ => 0) .UNIGRAM .BIGRAM [] [] []
    ["unseen", "tokens"] rfl rfl
  exact ⟨h.2.1, h.2.2⟩

/-- The source logistic-regression example update equals the spec-side
simultaneous pointwise update (keys of the extracted features are
distinct, so the sequential weights[idx] -= ... writes are independent). -/
theorem lr_example_step_eq (k : FeatKind) (ind : Indexer) (weights : Int → ℝ)
    (ex : SentimentExample) :
    lr_example_step k ind weights ex = lr_example_step_from_spec k ind weights ex := by
  have hnodup := extract_nodup k ind ex.words false
  simp only [lr_example_step, lr_example_step_from_spec]
  rw [foldl_update_sub (0.4 * ((ex.label : ℝ)
      - 1 / (1 + Real.exp (dotScore weights (extract_features k ind ex.words false).1))))
    _ _ hnodup]

/-- The two logistic example-step functions agree everywhere. -/
theorem lr_step_funeq : lr_example_step = lr_example_step_from_spec := by
  funext k ind weights ex
  exact lr_example_step_eq k ind weights ex

/-- C1: Logistic-regression training performs, for each example of each of
the 30 epochs, exactly the spec update — non-growth feature extraction,
score = the weighted feature sum, probability = 1 / (1 + exp(score)),
error = trueLabel - probability, and weight[id] -= 0.4 * error * count for
every (id, count) of the feature vector — for every training set, shuffle
schedule and extractor variant. -/
theorem C1_logistic_training_matches_spec
    (shuffle : Nat → List SentimentExample → List SentimentExample)
    (train_exs : List SentimentExample) (k : FeatKind) (ind0 : Indexer) :
    train_logistic_regression shuffle train_exs k ind0
      = train_logistic_regression_from_spec shuffle train_exs k ind0 := by
  simp only [train_logistic_regression, train_logistic_regression_from_spec, lr_step_funeq]

/-- The source perceptron example update equals the spec-side update for
binary labels. -/
theorem perceptron_example_step_eq (k : FeatKind) (ind : Indexer) (weights : Int → ℝ)
    (ex : SentimentExample) (hlab : ex.label = 0 ∨ ex.label = 1) :
    perceptron_example_step k ind weights ex
      = perceptron_example_step_from_spec k ind weights ex := by
  have hnodup := extract_nodup k ind ex.words false
  simp only [perceptron_example_step, perceptron_example_step_from_spec]
  set features := (extract_features k ind ex.words false).1 with hfeat
  set score := dotScore weights features with hscore
  rcases hlab with h | h <;> rw [h]
  · have hbody : (fun (w : Int → ℝ) (p : Int × Nat) => Function.update w p.1
        (w p.1 + if (0 : Nat) = 1 then 0.0001 * (p.2 : ℝ) else -(0.0001 * (p.2 : ℝ))))
        = fun (w : Int → ℝ) (p : Int × Nat) =>
            Function.update w p.1 (w p.1 + -(0.0001 * (p.2 : ℝ))) := by
      funext w p
      norm_num
    rw [hbody, foldl_update_neg 0.0001 features weights hnodup]
    by_cases hs : 0 < score
    · rw [if_pos (by simp [hs]), if_pos hs, if_neg (by norm_num), if_neg (by norm_num)]
    · rw [if_neg (by simp [hs]), if_neg hs, if_pos rfl]
  · have hbody : (fun (w : Int → ℝ) (p : Int × Nat) => Function.update w p.1
        (w p.1 + if (1 : Nat) = 1 then 0.0001 * (p.2 : ℝ) else -(0.0001 * (p.2 : ℝ))))
        = fun (w : Int → ℝ) (p : Int × Nat) =>
            Function.update w p.1 (w p.1 + 0.0001 * (p.2 : ℝ)) := by
      funext w p
      norm_num
    rw [hbody, counter_foldl_update 0.0001 features weights hnodup]
    by_cases hs : 0 < score
    · rw [if_neg (by simp [hs]), if_pos hs, if_pos rfl]
    · rw [if_pos (by simp [hs]), if_neg hs, if_neg (by norm_num), if_pos rfl]

/-- C4: Perceptron training runs 30 epochs with learning rate 1e-4 and is
mistake-driven: whenever the predicted class (1 exactly when the score is
strictly positive) equals the true label the weights are unchanged, and
otherwise every weight moves by learningRate * count, upward for label 1
and downward for label 0 — for every epoch-wise permutation shuffle and
every training set with binary labels. -/
theorem C4_perceptron_training_matches_spec
    (shuffle : Nat → List SentimentExample → List SentimentExample)
    (train_exs : List SentimentExample) (k : FeatKind) (ind0 : Indexer)
    (hshuffle : ∀ e l, List.Perm (shuffle e l) l)
    (hlab : ∀ ex ∈ train_exs, ex.label = 0 ∨ ex.label = 1) :
    train_perceptron shuffle train_exs k ind0
      = train_perceptron_from_spec shuffle train_exs k ind0 := by
  simp only [train_perceptron, train_perceptron_from_spec]
  set ind := train_exs.foldl (fun i ex => (extract_features k i ex.words true).2) ind0 with hind
  have key : (List.range 30).foldl
      (fun st epoch => ((shuffle epoch st.2).foldl (perceptron_example_step k ind) st.1,
        shuffle epoch st.2))
      ((fun _ => (0 : ℝ)), train_exs)
    = (List.range 30).foldl
      (fun st epoch => ((shuffle epoch st.2).foldl (perceptron_example_step_from_spec k ind) st.1,
        shuffle epoch st.2))
      ((fun _ => (0 : ℝ)), train_exs) := by
    refine range_foldl_congr _ _ (fun l => ∀ ex ∈ l, ex.label = 0 ∨ ex.label = 1) ?_ ?_ 30 _ hlab
    · intro st n hInv
      have hexs : ∀ ex ∈ shuffle n st.2, ex.label = 0 ∨ ex.label = 1 :=
        fun ex hex => hInv ex ((hshuffle n st.2).subset hex)
      rw [List.foldl_ext (perceptron_example_step k ind) (perceptron_example_step_from_spec k ind)
        st.1 (fun w ex hex => perceptron_example_step_eq k ind w ex (hexs ex hex))]
    · intro st n hInv
      exact fun ex hex => hInv ex ((hshuffle n st.2).subset hex)
  rw [key]

/-- Witness for C4 at a concrete input: the identity shuffle is a
permutation, the one-example training set has a binary label, and the two
trainings coincide. -/
theorem C4_witness :
    train_perceptron (fun _ l => l) [⟨["good"], 1⟩] .UNIGRAM []
      = train_perceptron_from_spec (fun _ l => l) [⟨["good"], 1⟩] .UNIGRAM [] :=
  C4_perceptron_training_matches_spec (fun _ l => l) [⟨["good"], 1⟩] .UNIGRAM []
    (fun _ l => List.Perm.refl l)
    (by intro ex hex; rw [List.mem_singleton.mp hex]; right; rfl)

/-- C6 counterexample: the validation of the claim fails in two ways.
First, with model TRIVIAL the feature-kind string is never validated:
train_model with the unrecognized feature kind GARBAGE returns the
trivial classifier instead of failing.  Second, the selector accepted for
logistic regression is LR — a string outside the claimed set
TRIVIAL | PERCEPTRON | LOGISTIC_REGRESSION — and it succeeds rather than
failing. -/
theorem C6_counterexample :
    train_model ⟨"TRIVIAL", "GARBAGE"⟩ (fun _ l => l) [] = Except.ok SentimentClassifier.trivialC
    ∧ exceptIsOk (train_model ⟨"LR", "UNIGRAM"⟩ (fun _ l => l) []) = true := by
  constructor
  · rfl
  · rfl

/-- C6 amended: when the model kind is TRIVIAL the feature kind is ignored
(never validated) and the trivial classifier is returned.  Otherwise a
feature kind outside UNIGRAM | BIGRAM | BETTER fails immediately with a
descriptive error, independent of the training data; with a recognized
feature kind, a model kind outside TRIVIAL | PERCEPTRON | LR | BETTER
(the accepted strings — LOGISTIC_REGRESSION is not one of them) fails
immediately with a descriptive error, again independent of the training
data, so no vocabulary pass happens on either failing path and nothing
ever silently defaults. -/
theorem C6_amended_validation (args : Args)
    (shuffle : Nat → List SentimentExample → List SentimentExample)
    (train_exs : List SentimentExample) :
    (args.model = "TRIVIAL" →
        train_model args shuffle train_exs = Except.ok SentimentClassifier.trivialC)
    ∧ (args.model ≠ "TRIVIAL" →
        args.feats ≠ "UNIGRAM" → args.feats ≠ "BIGRAM" → args.feats ≠ "BETTER" →
        train_model args shuffle train_exs
          = Except.error "Pass in UNIGRAM, BIGRAM, or BETTER to run the appropriate system")
    ∧ (args.model ≠ "TRIVIAL" → args.model ≠ "PERCEPTRON" → args.model ≠ "LR" →
        args.model ≠ "BETTER" →
        args.feats = "UNIGRAM" ∨ args.feats = "BIGRAM" ∨ args.feats = "BETTER" →
        train_model args shuffle train_exs
          = Except.error "Pass in TRIVIAL, PERCEPTRON, or LR to run the appropriate system") := by
  refine ⟨?_, ?_, ?_⟩
  · intro h
    simp [train_model, h]
  · intro h1 h2 h3 h4
    simp [train_model, h1, h2, h3, h4]
  · intro h1 h2 h3 h4 hf
    rcases hf with hf | hf | hf <;>
      simp [train_model, train_model_dispatch, h1, h2, h3, h4, hf]

/-- Witness for C6 amended at concrete inputs: TRIVIAL ignores a bogus
feature kind; PERCEPTRON with a bogus feature kind hits the feature
error; the string LOGISTIC_REGRESSION itself hits the model error. -/
theorem C6_amended_validation_witness :
    train_model ⟨"TRIVIAL", "GARBAGE2"⟩ (fun _ l => l) []
        = Except.ok SentimentClassifier.trivialC
    ∧ train_model ⟨"PERCEPTRON", "UNKNOWN"⟩ (fun _ l => l) []
        = Except.error "Pass in UNIGRAM, BIGRAM, or BETTER to run the appropriate system"
    ∧ train_model ⟨"LOGISTIC_REGRESSION", "UNIGRAM"⟩ (fun _ l => l) []
        = Except.error "Pass in TRIVIAL, PERCEPTRON, or LR to run the appropriate system" :=
  ⟨(C6_amended_validation ⟨"TRIVIAL", "GARBAGE2"⟩ (fun _ l => l) []).1 rfl,
   (C6_amended_validation ⟨"PERCEPTRON", "UNKNOWN"⟩ (fun _ l => l) []).2.1
     (by decide) (by decide) (by decide) (by decide),
   (C6_amended_validation ⟨"LOGISTIC_REGRESSION", "UNIGRAM"⟩ (fun _ l => l) []).2.2
     (by decide) (by decide) (by decide) (by decide) (Or.inl rfl)⟩
